import Mathlib

/-!
Verification of the golden-dataset test runner
(`golden_dataset/test_runner/{validator,fetch_comment,runner}.py`).

The Python modules are shallowly embedded: dictionaries become structures,
Python sets of normalized strings become `Finset`, floating-point
percentages become `ℚ` (the computations are exact ratios, so `ℚ` is the
faithful model of the intended arithmetic), exceptions become `Except`,
and the two polling loops (`while elapsed < max_wait`) become fuel-indexed
recursions whose fuel (`max_wait + 1`) is enough whenever
`poll_interval ≥ 1`, which is exactly when the Python loops terminate.
-/

set_option autoImplicit false

namespace GoldenDataset

/-- A value that can occur as an element of a `categories` /
`focus_areas` / `suggestions` / `potential_issues` list in the parsed
JSON: a string, or Python `None`.  Python truthiness on such an item is
`Item.truthy`. -/
inductive Item where
  | str (s : String)
  | none
deriving DecidableEq

/-- Python truthiness of an item: `None` and the empty string are falsy. -/
def Item.truthy : Item → Bool
  | .str s => !s.isEmpty
  | .none => false

/-- A field value as it reaches a validator: either a Python list of
items, or some non-list, non-set scalar (e.g. `None` or a bare string).
`normalize_set` maps every scalar to the empty set, mirroring the
`isinstance(items, (list, set))` guard; a Python `set` input behaves the
same as the list of its elements there, so `list` covers both. -/
inductive FieldVal where
  | list (xs : List Item)
  | scalar (x : Item)
deriving DecidableEq

/-- Collapse whitespace runs, character by character: the flag records
whether the previous character was whitespace, so each maximal run of
whitespace emits a single space, mirroring `re.sub(r'\s+', ' ', text)`. -/
def collapseWSAux : Bool → List Char → List Char
  | _, [] => []
  | inRun, c :: cs =>
    if c.isWhitespace then
      if inRun then collapseWSAux true cs
      else ' ' :: collapseWSAux true cs
    else
      c :: collapseWSAux false cs

/-- Replace every maximal run of whitespace characters by a single
space (`re.sub(r'\s+', ' ', text)`). -/
def collapseWS (l : List Char) : List Char :=
  collapseWSAux false l

/-- Python `str.lower()` (character-wise lowering; the inputs here are
plain ASCII review phrases). -/
def pyLower (l : List Char) : List Char :=
  l.map Char.toLower

/-- Python `str.strip()`: drop whitespace from both ends. -/
def pyStrip (l : List Char) : List Char :=
  ((l.dropWhile Char.isWhitespace).reverse.dropWhile Char.isWhitespace).reverse

/-- Embedding of `validator.normalize_text` restricted to strings:
`text.lower().strip()` followed by `re.sub(r'\s+', ' ', text)`. -/
def normalize_text (s : String) : String :=
  String.mk (collapseWS (pyStrip (pyLower s.data)))

/-- Embedding of `validator.normalize_text` on items: non-strings are
returned unchanged. -/
def Item.normalize : Item → Item
  | .str s => .str (normalize_text s)
  | .none => .none

/-- Embedding of `validator.normalize_set`: a non-list/non-set value
becomes the empty set; otherwise the falsy items are dropped and the
rest normalized (`set(normalize_text(item) for item in items if item)`). -/
def normalize_set : FieldVal → Finset Item
  | .scalar _ => ∅
  | .list xs => ((xs.filter Item.truthy).map Item.normalize).toFinset

/-- Result dictionary returned by `validate_categories` /
`validate_focus_areas` (the exact-match validators): keys `passed`,
`expected`, `actual`, `missing`, `extra`, `match_percentage`. -/
structure ExactResult where
  passed : Bool
  expected : Finset Item
  actual : Finset Item
  missing : Finset Item
  extra : Finset Item
  match_percentage : ℚ
deriving DecidableEq

/-- Result dictionary returned by `validate_suggestions` /
`validate_potential_issues` (the subset validators): keys `passed`,
`expected`, `actual`, `found`, `missing`, `match_percentage`. -/
structure SubsetResult where
  passed : Bool
  expected : Finset Item
  actual : Finset Item
  found : Finset Item
  missing : Finset Item
  match_percentage : ℚ
deriving DecidableEq

/-- Embedding of `validator.validate_categories`: exact match of the
normalized sets. -/
def validate_categories (actual expected : FieldVal) : ExactResult :=
  let actual_set := normalize_set actual
  let expected_set := normalize_set expected
  { passed := decide (actual_set = expected_set)
    expected := expected_set
    actual := actual_set
    missing := expected_set \ actual_set
    extra := actual_set \ expected_set
    match_percentage :=
      if expected_set = ∅ then 100
      else ((actual_set ∩ expected_set).card : ℚ) / (expected_set.card : ℚ) * 100 }

/-- Embedding of `validator.validate_focus_areas`; its body in the
source is identical to `validate_categories`. -/
def validate_focus_areas (actual expected : FieldVal) : ExactResult :=
  let actual_set := normalize_set actual
  let expected_set := normalize_set expected
  { passed := decide (actual_set = expected_set)
    expected := expected_set
    actual := actual_set
    missing := expected_set \ actual_set
    extra := actual_set \ expected_set
    match_percentage :=
      if expected_set = ∅ then 100
      else ((actual_set ∩ expected_set).card : ℚ) / (expected_set.card : ℚ) * 100 }

/-- Embedding of `validator.validate_suggestions`: every normalized
expected item must be found in the normalized actual set
(`passed = len(missing) == 0`). -/
def validate_suggestions (actual expected : FieldVal) : SubsetResult :=
  let actual_set := normalize_set actual
  let expected_set := normalize_set expected
  let found := expected_set ∩ actual_set
  let missing := expected_set \ actual_set
  { passed := decide (missing.card = 0)
    expected := expected_set
    actual := actual_set
    found := found
    missing := missing
    match_percentage :=
      if expected_set = ∅ then 100
      else (found.card : ℚ) / (expected_set.card : ℚ) * 100 }

/-- Embedding of `validator.validate_potential_issues`; its body in the
source is identical to `validate_suggestions`. -/
def validate_potential_issues (actual expected : FieldVal) : SubsetResult :=
  let actual_set := normalize_set actual
  let expected_set := normalize_set expected
  let found := expected_set ∩ actual_set
  let missing := expected_set \ actual_set
  { passed := decide (missing.card = 0)
    expected := expected_set
    actual := actual_set
    found := found
    missing := missing
    match_percentage :=
      if expected_set = ∅ then 100
      else (found.card : ℚ) / (expected_set.card : ℚ) * 100 }

/-- The dictionary parsed from the agent's comment
(`parse_output.parse_agent_comment`), as consumed by `validate_strict`
through `actual.get(key, [])`: a missing key behaves exactly like the
empty list, so each field is a `FieldVal` with absence represented by
`.list []`. -/
structure Parsed where
  categories : FieldVal
  focus_areas : FieldVal
  suggestions : FieldVal
  potential_issues : FieldVal
deriving DecidableEq

/-- The `expected_review` sub-dictionary of an evaluation, read through
`.get(key, [])`, so a missing key again behaves as `.list []`. -/
structure ExpectedReview where
  focus_areas : FieldVal
  suggestions : FieldVal
  potential_issues : FieldVal
deriving DecidableEq

/-- One evaluation record from `pr_evaluations.json`.  `id` and
`pr_title` are indexed directly by the runner (`evaluation['id']`), so
they are mandatory here; `difficulty` is read with `.get` and may be
absent; a missing `expected_review` dictionary behaves as one whose
three fields are all `.list []`. -/
structure Evaluation where
  id : Int
  pr_title : String
  difficulty : Option String
  categories : FieldVal
  expected_review : ExpectedReview
deriving DecidableEq

/-- The dictionary built by `validator.validate_strict`. -/
structure ValidationResults where
  evaluation_id : Int
  pr_title : String
  difficulty : Option String
  categories : ExactResult
  focus_areas : ExactResult
  suggestions : SubsetResult
  potential_issues : SubsetResult
  overall_pass : Bool
  overall_score : ℚ
deriving DecidableEq

/-- The keys present in the dictionary returned by `validate_strict`,
in construction order; `print_summary` in `runner.py` tests membership
of the string `"validation"` in this dictionary. -/
def validate_strict_keys : List String :=
  ["evaluation_id", "pr_title", "difficulty", "categories", "focus_areas",
   "suggestions", "potential_issues", "overall_pass", "overall_score"]

/-- Embedding of `validator.validate_strict`: run the four dimension
validators, then `overall_pass = all(...)` of the four `passed` flags
and `overall_score = sum(scores)/len(scores)` over the non-empty list
of the four `match_percentage` values. -/
def validate_strict (actual : Parsed) (expected : Evaluation) : ValidationResults :=
  let categories := validate_categories actual.categories expected.categories
  let focus_areas := validate_focus_areas actual.focus_areas expected.expected_review.focus_areas
  let suggestions := validate_suggestions actual.suggestions expected.expected_review.suggestions
  let potential_issues :=
    validate_potential_issues actual.potential_issues expected.expected_review.potential_issues
  let scores := [categories.match_percentage, focus_areas.match_percentage,
                 suggestions.match_percentage, potential_issues.match_percentage]
  { evaluation_id := expected.id
    pr_title := expected.pr_title
    difficulty := expected.difficulty
    categories := categories
    focus_areas := focus_areas
    suggestions := suggestions
    potential_issues := potential_issues
    overall_pass :=
      categories.passed && focus_areas.passed && suggestions.passed && potential_issues.passed
    overall_score := if scores.isEmpty then 0 else scores.sum / (scores.length : ℚ) }

/-- Python substring containment `needle in hay` on strings. -/
def strContains (hay needle : String) : Bool :=
  decide (needle.data <:+: hay.data)

/-- A PR comment as returned by `gh pr view --json body,author,createdAt,id`
and consumed by `fetch_comment.py`.  `author_login` is
`comment.get('author', {}).get('login', '')` with `none` for an absent
author or login key (the code defaults it to the empty string);
likewise `body` is read with `.get('body', ...)`. -/
structure Comment where
  author_login : Option String
  body : Option String
  createdAt : Option String
deriving DecidableEq

/-- The fixed author-login substrings of `fetch_comment.is_agent_comment`. -/
def bot_patterns : List String :=
  ["bot", "assistant", "review", "agent", "librsvg"]

/-- The fixed body signature phrases of `fetch_comment.is_agent_comment`. -/
def signature_patterns : List String :=
  ["## categories", "## focus areas", "## suggestions", "## potential issues",
   "pr review", "code review", "automated review"]

/-- Embedding of `fetch_comment.is_agent_comment`: true iff the
lower-cased author login contains one of `bot_patterns`, or the
lower-cased body contains one of `signature_patterns`. -/
def is_agent_comment (comment : Comment) : Bool :=
  let username := String.mk (pyLower (comment.author_login.getD "").data)
  if bot_patterns.any (fun pattern => strContains username pattern) then
    true
  else
    let body := String.mk (pyLower (comment.body.getD "").data)
    if signature_patterns.any (fun pattern => strContains body pattern) then
      true
    else
      false

/-- Loop body of `fetch_comment.fetch_agent_comment`.  `query n` is the
comment list returned by the `n`-th call to `fetch_pr_comments`
(0-based).  The pair returned is (comment body or `none`, number of
query attempts made).  The Python loop is `while elapsed < max_wait`,
querying first and sleeping `poll_interval` before the next iteration;
fuel `max_wait + 1` makes the recursion total and is never exhausted
when `poll_interval ≥ 1`, which is exactly when the Python loop
terminates. -/
def fetch_agent_comment_aux (query : Nat → List Comment) (max_wait poll_interval : Nat) :
    Nat → Nat → Nat → Option String × Nat
  | 0, _, attempt => (Option.none, attempt)
  | fuel + 1, elapsed, attempt =>
    if elapsed < max_wait then
      match (query attempt).find? is_agent_comment with
      | some comment => (comment.body, attempt + 1)
      | Option.none =>
        fetch_agent_comment_aux query max_wait poll_interval fuel
          (elapsed + poll_interval) (attempt + 1)
    else
      (Option.none, attempt)

/-- Embedding of `fetch_comment.fetch_agent_comment` (the blocking
poller): repeatedly fetch the comment list and return the body of the
first comment in list order accepted by `is_agent_comment`; give up
with `None` once `elapsed` reaches `max_wait`.  Also returns how many
query attempts were made. -/
def fetch_agent_comment (query : Nat → List Comment) (max_wait poll_interval : Nat) :
    Option String × Nat :=
  fetch_agent_comment_aux query max_wait poll_interval (max_wait + 1) 0 0

/-- Embedding of `fetch_comment.fetch_latest_agent_comment` (the
non-blocking variant used by the runner): filter the agent comments and
return the body of the one with the lexicographically greatest
`createdAt` (Python sorts descending by `c.get('createdAt', '')` and
takes the head; Python `sort` is stable, so ties keep list order). -/
def fetch_latest_agent_comment (comments : List Comment) : Option String :=
  let agent_comments := comments.filter is_agent_comment
  match (agent_comments.mergeSort
      (fun a b => (b.createdAt.getD "") ≤ (a.createdAt.getD ""))).head? with
  | some c => c.body
  | Option.none => Option.none

/-- The two `runner` configuration values that drive the control flow of
`run_single_evaluation` (`runner_config.get('max_wait_seconds', 300)` and
`runner_config.get('poll_interval', 5)`); the `github` values only feed
into the shell command strings. -/
structure Config where
  max_wait_seconds : Nat
  poll_interval : Nat
deriving DecidableEq

/-- External effects available to one `run_single_evaluation` call.
`create_pr` models `create_pr.create_pr_for_evaluation` (a module not
under verification): it may raise, or return a pair whose first
component is falsy (`none` here) on failure.  `fetch n` models the
`n`-th call (0-based) to `fetch_comment.fetch_latest_agent_comment`,
and `parse` models `parse_output.parse_agent_comment`; each may raise,
which the `except Exception` boundary of the evaluation catches. -/
structure EvalEnv where
  create_pr : Except String (Option (Nat × String))
  fetch : Nat → Except String (Option String)
  parse : String → Except String Parsed

/-- The result dictionary built by `run_single_evaluation`. -/
structure RunResult where
  evaluation_id : Int
  pr_title : String
  status : String
  pr_number : Option Nat
  pr_url : Option String
  agent_comment : Option String
  parsed_output : Option Parsed
  validation : Option ValidationResults
  error : Option String
deriving DecidableEq

/-- The result dictionary as initialized at the top of
`run_single_evaluation` (all data fields `None`, `status` pending). -/
def init_result (ev : Evaluation) : RunResult :=
  { evaluation_id := ev.id
    pr_title := ev.pr_title
    status := "pending"
    pr_number := Option.none
    pr_url := Option.none
    agent_comment := Option.none
    parsed_output := Option.none
    validation := Option.none
    error := Option.none }

/-- Python truthiness of the fetched comment (`if comment:`): `None`
and the empty string are falsy, so an empty comment body does not stop
the polling loop. -/
def comment_truthy : Option String → Bool
  | Option.none => false
  | some s => !s.isEmpty

/-- The polling loop inside `run_single_evaluation` (sleep, bump
`elapsed` by `poll_interval`, fetch, break on a truthy comment, repeat
while `elapsed < max_wait`).  Returns `some c` exactly when the loop
broke on a truthy comment `c`, propagates an exception from `fetch`,
and returns `none` on timeout.  Fuel `max_wait + 1` is never exhausted
when `poll_interval ≥ 1`, which is exactly when the Python loop
terminates. -/
def runner_poll_aux (fetch : Nat → Except String (Option String)) (max_wait poll_interval : Nat) :
    Nat → Nat → Nat → Except String (Option String)
  | 0, _, _ => Except.ok Option.none
  | fuel + 1, elapsed, attempt =>
    if elapsed < max_wait then
      match fetch attempt with
      | .error e => .error e
      | .ok c =>
        if comment_truthy c then .ok c
        else runner_poll_aux fetch max_wait poll_interval fuel (elapsed + poll_interval) (attempt + 1)
    else
      .ok Option.none

/-- Embedding of `runner.run_single_evaluation`: create the PR, poll
for the agent comment, parse it, validate with
`validator.validate_strict`, and translate each failure mode into the
corresponding `status`; any exception raised by a step is caught at
this evaluation's boundary and recorded as `status = "error"` with the
exception's message. -/
def run_single_evaluation (env : EvalEnv) (cfg : Config) (ev : Evaluation) : RunResult :=
  let r0 := init_result ev
  match env.create_pr with
  | .error e => { r0 with status := "error", error := some e }
  | .ok Option.none => { r0 with status := "failed", error := some "Failed to create PR" }
  | .ok (some (pr_number, pr_url)) =>
    let r1 := { r0 with pr_number := some pr_number, pr_url := some pr_url }
    match runner_poll_aux env.fetch cfg.max_wait_seconds cfg.poll_interval
        (cfg.max_wait_seconds + 1) 0 0 with
    | .error e => { r1 with status := "error", error := some e }
    | .ok Option.none =>
      { r1 with status := "timeout"
                error := some ("Agent comment not received after "
                  ++ toString cfg.max_wait_seconds ++ "s") }
    | .ok (some c) =>
      let r2 := { r1 with agent_comment := some c }
      match env.parse c with
      | .error e => { r2 with status := "error", error := some e }
      | .ok parsed =>
        let r3 := { r2 with parsed_output := some parsed }
        let validation := validate_strict parsed ev
        let r4 := { r3 with validation := some validation }
        if validation.overall_pass then { r4 with status := "passed" }
        else { r4 with status := "failed" }

/-- The `--id` filter at the top of `run_evaluations`: `if
evaluation_ids:` is Python truthiness, so both `None` and the empty
list mean no filtering. -/
def filter_evaluations (evaluations : List Evaluation) (evaluation_ids : Option (List Int)) :
    List Evaluation :=
  match evaluation_ids with
  | Option.none => evaluations
  | some ids =>
    if ids.isEmpty then evaluations
    else evaluations.filter (fun e => decide (e.id ∈ ids))

/-- Embedding of `runner.run_evaluations`: filter by requested ids,
then run each surviving evaluation in order, the `i`-th one against the
external world `env i`, collecting every result. -/
def run_evaluations (env : Nat → EvalEnv) (cfg : Config) (evaluations : List Evaluation)
    (evaluation_ids : Option (List Int)) : List RunResult :=
  let evs := filter_evaluations evaluations evaluation_ids
  if evs.isEmpty then []
  else (evs.enum).map (fun p => run_single_evaluation (env p.1) cfg p.2)

/-- The per-dimension missing-item details that `print_summary` emits
for one failed evaluation.  In the source these four prints sit under
`if 'validation' in val:` where `val` is already the validation
dictionary (`val = r.get('validation', {})`), whose keys are
`validate_strict_keys`; the membership test is on that dictionary, not
on the result dictionary. -/
def failed_missing_details (val : ValidationResults) : List (String × Finset Item) :=
  if validate_strict_keys.contains "validation" then
    (if !val.categories.passed then [("categories", val.categories.missing)] else []) ++
    (if !val.focus_areas.passed then [("focus_areas", val.focus_areas.missing)] else []) ++
    (if !val.suggestions.passed then [("suggestions", val.suggestions.missing)] else []) ++
    (if !val.potential_issues.passed then [("potential_issues", val.potential_issues.missing)] else [])
  else []

/-- The missing-item information contained in the printed aggregate
summary: one entry per result with `status == 'failed'` (in order),
carrying the per-dimension missing sets that `print_summary` prints for
it.  `none` stands for a failed result whose `validation` is still
`None`, where `print_summary` would fault before printing details. -/
def print_summary_missing_info (results : List RunResult) :
    List (Option (List (String × Finset Item))) :=
  (results.filter (fun r => r.status == "failed")).map
    (fun r => (r.validation).map failed_missing_details)

/-- The exception, if any, raised by `runner.print_summary`.  The result
dictionary always contains the key `validation` (initialized to `None`),
so `r.get('validation', {})` yields `None` — not the `{}` default — for
every evaluation that never reached the validation step, and
`None.get('overall_score', 0)` in the total-score sum raises
`AttributeError`; with an empty result list the `passed/total*100`
pass-rate line raises `ZeroDivisionError`. -/
def print_summary_exception (results : List RunResult) : Option String :=
  if results.any (fun r => r.validation.isNone) then
    some "AttributeError"
  else if results.length = 0 then
    some "ZeroDivisionError"
  else
    Option.none

/-- The explicit exit code chosen at the bottom of `runner.main`:
`sys.exit(1)` iff the count of `failed` results is positive, else
`sys.exit(0)`. -/
def exit_code_of (results : List RunResult) : Nat :=
  if (results.filter (fun r => r.status == "failed")).length > 0 then 1 else 0

/-- The process exit status of `runner.main`: `1` when loading the
configuration or the evaluations file raises (missing file, malformed
content), `0` for a dry run, and otherwise the outcome of the batch —
where an exception escaping `print_summary` terminates the process
with status `1` before the explicit `sys.exit` is reached. -/
def main_exit (load_config : Except String Config)
    (load_evaluations : Config → Except String (List Evaluation))
    (env : Nat → EvalEnv) (evaluation_ids : Option (List Int)) (dry_run : Bool) : Nat :=
  match load_config with
  | .error _ => 1
  | .ok cfg =>
    match load_evaluations cfg with
    | .error _ => 1
    | .ok evaluations =>
      if dry_run then 0
      else
        let results := run_evaluations env cfg evaluations evaluation_ids
        match print_summary_exception results with
        | some _ => 1
        | Option.none => exit_code_of results

/-- A configuration with a short polling budget (`max_wait_seconds=10`,
`poll_interval=5`), used for concrete scenario runs. -/
def sample_config : Config :=
  { max_wait_seconds := 10, poll_interval := 5 }

/-- An evaluation expecting the single category `security` and nothing
else, used for concrete scenario runs. -/
def sample_evaluation : Evaluation :=
  { id := 1
    pr_title := "Sample PR"
    difficulty := some "easy"
    categories := .list [.str "security"]
    expected_review := { focus_areas := .list [], suggestions := .list [], potential_issues := .list [] } }

/-- An evaluation with no expectations at all (every expected list
empty), which any parsed output with empty fields passes. -/
def empty_evaluation (n : Int) (title : String) : Evaluation :=
  { id := n
    pr_title := title
    difficulty := Option.none
    categories := .list []
    expected_review := { focus_areas := .list [], suggestions := .list [], potential_issues := .list [] } }

/-- A parsed agent comment with all four fields empty. -/
def empty_parsed : Parsed :=
  { categories := .list [], focus_areas := .list [], suggestions := .list [], potential_issues := .list [] }

/-- An external world where PR creation succeeds but the agent never
comments: every poll returns no comment. -/
def timeout_env : EvalEnv :=
  { create_pr := .ok (some (1, "https://example.test/pr/1"))
    fetch := fun _ => .ok Option.none
    parse := fun _ => .error "unreachable" }

/-- An external world where everything succeeds: the PR is created, the
first poll returns an agent comment, and parsing yields
`empty_parsed`. -/
def good_env : EvalEnv :=
  { create_pr := .ok (some (7, "https://example.test/pr/7"))
    fetch := fun _ => .ok (some "## Categories\n- none")
    parse := fun _ => .ok empty_parsed }

/-- Like `good_env`, but the parsing step raises. -/
def parse_error_env : EvalEnv :=
  { create_pr := good_env.create_pr
    fetch := good_env.fetch
    parse := fun _ => .error "parse failure: malformed comment" }

/-- A batch world for three evaluations where only the second one
(index 1) raises during parsing. -/
def batch3_env : Nat → EvalEnv :=
  fun i => if i = 1 then parse_error_env else good_env

/-- A completed evaluation that ends `status = "failed"`: the agent
comment parses to `empty_parsed`, which misses the expected category
`security` of `sample_evaluation`. -/
def failed_run_result : RunResult :=
  run_single_evaluation good_env sample_config sample_evaluation

/-- C2: exact-match validation (`validate_categories` and the identical
`validate_focus_areas`) passes iff the normalized sets are equal, with
`missing = expected - actual`, `extra = actual - expected`, and
`match_percentage = |actual ∩ expected| / |expected| * 100` (100 when
`expected` is empty); `["x"]` against `[]` fails even though its
missing set is empty, and `["Security", " performance "]` against
`["security", "performance"]` passes with `match_percentage = 100`
thanks to lower-casing, whitespace collapsing and trimming. -/
theorem validate_exact_spec :
    (∀ a e : FieldVal,
        ((validate_categories a e).passed = true ↔ normalize_set a = normalize_set e)
        ∧ (validate_categories a e).missing = normalize_set e \ normalize_set a
        ∧ (validate_categories a e).extra = normalize_set a \ normalize_set e
        ∧ (validate_categories a e).match_percentage =
            (if normalize_set e = ∅ then 100
              else ((normalize_set a ∩ normalize_set e).card : ℚ)
                / ((normalize_set e).card : ℚ) * 100)
        ∧ validate_focus_areas a e = validate_categories a e)
    ∧ ((validate_categories (.list [Item.str "x"]) (.list [])).passed = false
        ∧ (validate_categories (.list [Item.str "x"]) (.list [])).missing = ∅)
    ∧ ((validate_categories (.list [Item.str "Security", Item.str " performance "])
            (.list [Item.str "security", Item.str "performance"])).passed = true
        ∧ (validate_categories (.list [Item.str "Security", Item.str " performance "])
            (.list [Item.str "security", Item.str "performance"])).match_percentage = 100) := by
  refine ⟨fun a e => ⟨?_, rfl, rfl, rfl, rfl⟩, ⟨by decide, by decide⟩, by decide, ?_⟩
  · simp [validate_categories]
  · simp only [validate_categories]
    rw [if_neg (by decide)]
    rw [show (normalize_set (FieldVal.list [Item.str "Security", Item.str " performance "]) ∩
        normalize_set (FieldVal.list [Item.str "security", Item.str "performance"])).card = 2 from by decide]
    rw [show (normalize_set (FieldVal.list [Item.str "security", Item.str "performance"])).card = 2 from by decide]
    norm_num

/-- C3: subset validation (`validate_suggestions` and the identical
`validate_potential_issues`) passes iff every normalized expected item
occurs in the normalized actual set (extra actual items never cause
failure), with `found = expected ∩ actual`,
`missing = expected - actual`, and
`match_percentage = |found| / |expected| * 100` (100 when `expected` is
empty); in particular, against an empty expected list every actual list
passes with `match_percentage = 100`. -/
theorem validate_subset_spec :
    (∀ a e : FieldVal,
        ((validate_suggestions a e).passed = true ↔ normalize_set e ⊆ normalize_set a)
        ∧ (validate_suggestions a e).found = normalize_set e ∩ normalize_set a
        ∧ (validate_suggestions a e).missing = normalize_set e \ normalize_set a
        ∧ (validate_suggestions a e).match_percentage =
            (if normalize_set e = ∅ then 100
              else ((normalize_set e ∩ normalize_set a).card : ℚ)
                / ((normalize_set e).card : ℚ) * 100)
        ∧ validate_potential_issues a e = validate_suggestions a e)
    ∧ (∀ a : FieldVal,
        (validate_suggestions a (.list [])).passed = true
        ∧ (validate_suggestions a (.list [])).match_percentage = 100) := by
  refine ⟨fun a e => ⟨?_, rfl, rfl, rfl, rfl⟩, fun a => ⟨?_, ?_⟩⟩
  · simp [validate_suggestions, Finset.card_eq_zero, Finset.sdiff_eq_empty_iff_subset]
  · simp [validate_suggestions, normalize_set]
  · simp [validate_suggestions, normalize_set]

/-- C10: every dimension validator first normalizes via
`normalize_set`, which maps any non-list value to the empty set and
discards falsy items (empty strings, `None`); hence empty-string items
never affect any validation output, a scalar field behaves like the
empty list, exact validation of `[""]` against `[]` passes, and
`match_percentage` never divides by zero because it is 100 whenever the
normalized expected set is empty. -/
theorem normalize_set_safety_spec :
    (∀ x : Item, normalize_set (FieldVal.scalar x) = ∅)
    ∧ (∀ (x : Item) (e : FieldVal),
        validate_categories (FieldVal.scalar x) e = validate_categories (FieldVal.list []) e)
    ∧ (∀ (x : Item) (a : FieldVal),
        validate_suggestions a (FieldVal.scalar x) = validate_suggestions a (FieldVal.list []))
    ∧ (∀ xs : List Item,
        normalize_set (FieldVal.list (Item.str "" :: xs)) = normalize_set (FieldVal.list xs))
    ∧ (∀ xs : List Item,
        normalize_set (FieldVal.list (Item.none :: xs)) = normalize_set (FieldVal.list xs))
    ∧ (validate_categories (FieldVal.list [Item.str ""]) (FieldVal.list [])).passed = true
    ∧ (∀ a e : FieldVal, normalize_set e = ∅ →
        (validate_categories a e).match_percentage = 100
        ∧ (validate_suggestions a e).match_percentage = 100) := by
  refine ⟨fun x => rfl, fun x e => rfl, fun x a => rfl, fun xs => rfl, fun xs => rfl,
    by decide, fun a e h => ⟨?_, ?_⟩⟩
  · simp [validate_categories, h]
  · simp [validate_suggestions, h]

/-- Witness for C10 at a concrete input: the empty expected list
normalizes to the empty set, and both validators then report a
`match_percentage` of 100. -/
theorem normalize_set_safety_spec_witness :
    normalize_set (FieldVal.list []) = ∅
    ∧ (validate_categories (FieldVal.list [Item.str "q"]) (FieldVal.list [])).match_percentage = 100
    ∧ (validate_suggestions (FieldVal.list [Item.str "q"]) (FieldVal.list [])).match_percentage = 100 := by
  refine ⟨by decide, ?_, ?_⟩
  · exact (normalize_set_safety_spec.2.2.2.2.2.2 (FieldVal.list [Item.str "q"])
      (FieldVal.list []) (by decide)).1
  · exact (normalize_set_safety_spec.2.2.2.2.2.2 (FieldVal.list [Item.str "q"])
      (FieldVal.list []) (by decide)).2

/-- C1: `validate_strict` computes `overall_pass` as the conjunction of
the four dimensions' `passed` flags and `overall_score` as the
unweighted arithmetic mean of the four `match_percentage` values; at a
concrete input where exactly the categories dimension fails while the
other three score 100, `overall_pass` is false. -/
theorem validate_strict_overall_spec :
    (∀ (a : Parsed) (e : Evaluation),
        ((validate_strict a e).overall_pass = true ↔
          ((validate_strict a e).categories.passed = true
            ∧ (validate_strict a e).focus_areas.passed = true
            ∧ (validate_strict a e).suggestions.passed = true
            ∧ (validate_strict a e).potential_issues.passed = true))
        ∧ (validate_strict a e).overall_score =
            ((validate_strict a e).categories.match_percentage
              + (validate_strict a e).focus_areas.match_percentage
              + (validate_strict a e).suggestions.match_percentage
              + (validate_strict a e).potential_issues.match_percentage) / 4)
    ∧ ((validate_strict empty_parsed sample_evaluation).categories.passed = false
        ∧ (validate_strict empty_parsed sample_evaluation).focus_areas.match_percentage = 100
        ∧ (validate_strict empty_parsed sample_evaluation).suggestions.match_percentage = 100
        ∧ (validate_strict empty_parsed sample_evaluation).potential_issues.match_percentage = 100
        ∧ (validate_strict empty_parsed sample_evaluation).overall_pass = false) := by
  refine ⟨fun a e => ⟨?_, ?_⟩, by decide, rfl, rfl, rfl, by decide⟩
  · simp [validate_strict, Bool.and_eq_true, and_assoc]
  · simp [validate_strict]
    ring

/-- C7: `is_agent_comment` is a pure predicate, true iff the
lower-cased author login contains one of the five fixed substrings or
the lower-cased body contains one of the seven fixed signature phrases
(the disjunction makes the two checks order-independent); a comment
with empty author login and empty body yields false, and author login
`librsvg-reviewer-bot` yields true regardless of body. -/
theorem is_agent_comment_spec :
    (∀ c : Comment, is_agent_comment c = true ↔
        (bot_patterns.any (fun pattern =>
            strContains (String.mk (pyLower (c.author_login.getD "").data)) pattern) = true
          ∨ signature_patterns.any (fun pattern =>
            strContains (String.mk (pyLower (c.body.getD "").data)) pattern) = true))
    ∧ bot_patterns = ["bot", "assistant", "review", "agent", "librsvg"]
    ∧ signature_patterns = ["## categories", "## focus areas", "## suggestions",
        "## potential issues", "pr review", "code review", "automated review"]
    ∧ is_agent_comment { author_login := some "", body := some "", createdAt := Option.none } = false
    ∧ (∀ body createdAt : Option String,
        is_agent_comment ⟨some "librsvg-reviewer-bot", body, createdAt⟩ = true) := by
  refine ⟨fun c => ?_, rfl, rfl, by decide, fun body createdAt => ?_⟩
  · by_cases hA : bot_patterns.any (fun pattern =>
        strContains (String.mk (pyLower (c.author_login.getD "").data)) pattern) = true
    · simp [is_agent_comment, hA]
    · simp only [Bool.not_eq_true] at hA
      by_cases hB : signature_patterns.any (fun pattern =>
          strContains (String.mk (pyLower (c.body.getD "").data)) pattern) = true
      · simp [is_agent_comment, hA, hB]
      · simp only [Bool.not_eq_true] at hB
        simp [is_agent_comment, hA, hB]
  · simp only [is_agent_comment]
    rw [if_pos (by decide)]

/-- When no query ever yields an accepted comment, the blocking poller
returns `None` whatever the fuel, elapsed time and attempt counter. -/
lemma fetch_agent_comment_aux_no_match (query : Nat → List Comment) (mw pi : Nat)
    (h : ∀ n, (query n).find? is_agent_comment = Option.none) :
    ∀ fuel elapsed attempt : Nat,
      (fetch_agent_comment_aux query mw pi fuel elapsed attempt).1 = Option.none := by
  intro fuel
  induction fuel with
  | zero => intro elapsed attempt; rfl
  | succ f ih =>
    intro elapsed attempt
    simp only [fetch_agent_comment_aux, h attempt]
    split
    · exact ih (elapsed + pi) (attempt + 1)
    · rfl

/-- When the earliest query with an accepted comment is the `k`-th one
counted from the current attempt, and the time budget still allows
reaching it, the blocking poller returns that comment's body after
exactly `k + 1` query attempts. -/
lemma fetch_agent_comment_aux_first_match (query : Nat → List Comment) (mw pi : Nat)
    (c : Comment) :
    ∀ k fuel elapsed attempt : Nat,
      (∀ m, m < k → (query (attempt + m)).find? is_agent_comment = Option.none) →
      (query (attempt + k)).find? is_agent_comment = some c →
      elapsed + k * pi < mw → k < fuel →
      fetch_agent_comment_aux query mw pi fuel elapsed attempt = (c.body, attempt + k + 1) := by
  intro k
  induction k with
  | zero =>
    intro fuel elapsed attempt h1 h2 h3 h4
    match fuel, h4 with
    | f + 1, _ =>
      simp only [Nat.add_zero] at h2
      simp only [fetch_agent_comment_aux]
      rw [if_pos (by omega), h2]
  | succ k ih =>
    intro fuel elapsed attempt h1 h2 h3 h4
    match fuel, h4 with
    | f + 1, h4 =>
      have hlt : elapsed < mw := lt_of_le_of_lt (Nat.le_add_right _ _) h3
      have h0 : (query attempt).find? is_agent_comment = Option.none := by
        simpa using h1 0 (Nat.succ_pos k)
      simp only [fetch_agent_comment_aux]
      rw [if_pos hlt, h0]
      have h1n : ∀ m, m < k → (query (attempt + 1 + m)).find? is_agent_comment = Option.none := by
        intro m hm
        have := h1 (m + 1) (Nat.succ_lt_succ hm)
        rwa [show attempt + (m + 1) = attempt + 1 + m from by omega] at this
      have h2n : (query (attempt + 1 + k)).find? is_agent_comment = some c := by
        rwa [show attempt + (k + 1) = attempt + 1 + k from by omega] at h2
      have h3n : elapsed + pi + k * pi < mw := by
        have : elapsed + (k + 1) * pi = elapsed + pi + k * pi := by ring
        omega
      have := ih f (elapsed + pi) (attempt + 1) h1n h2n h3n (Nat.succ_lt_succ_iff.mp h4)
      rwa [show attempt + 1 + k + 1 = attempt + (k + 1) + 1 from by omega] at this

/-- C6: on every comment-list query oracle, the blocking
`fetch_agent_comment` returns the body of the first comment in list
order accepted by `is_agent_comment` on the earliest matching query
(doing `k + 1` query attempts when the match appears on the `k`-th
query within the time budget); if no query ever matches it returns
`None`, and with `max_wait = 10`, `poll_interval = 5` it performs
exactly 2 query attempts, never a 3rd. -/
theorem fetch_agent_comment_spec :
    (∀ (query : Nat → List Comment) (mw pi k : Nat) (c : Comment),
        1 ≤ pi →
        (∀ m, m < k → (query m).find? is_agent_comment = Option.none) →
        (query k).find? is_agent_comment = some c →
        k * pi < mw →
        fetch_agent_comment query mw pi = (c.body, k + 1))
    ∧ (∀ (query : Nat → List Comment) (mw pi : Nat),
        (∀ n, (query n).find? is_agent_comment = Option.none) →
        (fetch_agent_comment query mw pi).1 = Option.none)
    ∧ (∀ query : Nat → List Comment,
        (∀ n, (query n).find? is_agent_comment = Option.none) →
        fetch_agent_comment query 10 5 = (Option.none, 2)) := by
  refine ⟨fun query mw pi k c hpi h1 h2 h3 => ?_, fun query mw pi h => ?_, fun query h => ?_⟩
  · have hk : k < mw + 1 := by
      have hle : k * 1 ≤ k * pi := Nat.mul_le_mul_left k hpi
      omega
    have := fetch_agent_comment_aux_first_match query mw pi c k (mw + 1) 0 0
      (by simpa using h1) (by simpa using h2) (by simpa using h3) hk
    simpa [fetch_agent_comment] using this
  · exact fetch_agent_comment_aux_no_match query mw pi h (mw + 1) 0 0
  · simp [fetch_agent_comment, fetch_agent_comment_aux, h]

/-- Witness for C6: with a static single agent comment the poller
returns its body after one attempt, and with no comments at all it
returns `None` after exactly two attempts under `max_wait = 10`,
`poll_interval = 5`. -/
theorem fetch_agent_comment_spec_witness :
    fetch_agent_comment
        (fun _ => [(⟨some "agent-bot", some "LGTM", Option.none⟩ : Comment)]) 10 5
      = (some "LGTM", 1)
    ∧ fetch_agent_comment (fun _ => []) 10 5 = (Option.none, 2) := by
  constructor
  · exact fetch_agent_comment_spec.1 _ 10 5 0
      ⟨some "agent-bot", some "LGTM", Option.none⟩
      (by norm_num) (fun m hm => absurd hm (Nat.not_lt_zero m)) (by decide) (by norm_num)
  · exact fetch_agent_comment_spec.2.2 _ (fun n => rfl)

/-- Every run of one evaluation ends in one of the four terminal
statuses; a `passed` run always carries a validation record, while
`timeout` and `error` runs never do. -/
lemma run_single_evaluation_status_cases (env : EvalEnv) (cfg : Config) (ev : Evaluation) :
    ((run_single_evaluation env cfg ev).status = "passed"
        ∧ ((run_single_evaluation env cfg ev).validation).isSome = true)
    ∨ (run_single_evaluation env cfg ev).status = "failed"
    ∨ (((run_single_evaluation env cfg ev).status = "timeout"
        ∨ (run_single_evaluation env cfg ev).status = "error")
        ∧ (run_single_evaluation env cfg ev).validation = Option.none) := by
  unfold run_single_evaluation
  cases hc : env.create_pr with
  | error e => simp [init_result]
  | ok o =>
    cases o with
    | none => simp [init_result]
    | some pu =>
      obtain ⟨prn, pru⟩ := pu
      cases hp : runner_poll_aux env.fetch cfg.max_wait_seconds cfg.poll_interval
          (cfg.max_wait_seconds + 1) 0 0 with
      | error e => simp [init_result]
      | ok oc =>
        cases oc with
        | none => simp [init_result]
        | some c =>
          cases hpar : env.parse c with
          | error e => simp [hpar, init_result]
          | ok parsed =>
            by_cases hv : (validate_strict parsed ev).overall_pass = true
            · simp [hpar, init_result, hv]
            · simp only [Bool.not_eq_true] at hv
              simp [hpar, init_result, hv]

/-- Every result in a batch is the output of `run_single_evaluation`
on some index and some evaluation. -/
lemma mem_run_evaluations {env : Nat → EvalEnv} {cfg : Config} {evals : List Evaluation}
    {ids : Option (List Int)} {r : RunResult}
    (hr : r ∈ run_evaluations env cfg evals ids) :
    ∃ i ev, r = run_single_evaluation (env i) cfg ev := by
  simp only [run_evaluations] at hr
  split at hr
  · exact absurd hr (List.not_mem_nil r)
  · obtain ⟨p, hp, hpr⟩ := List.mem_map.mp hr
    exact ⟨p.1, p.2, hpr.symm⟩

/-- The explicit exit code of `main` is non-zero exactly when some
result has status `failed`. -/
lemma exit_code_of_ne_zero_iff (results : List RunResult) :
    exit_code_of results ≠ 0 ↔ ∃ r ∈ results, r.status = "failed" := by
  have hiff : 0 < (results.filter (fun r => r.status == "failed")).length ↔
      ∃ r ∈ results, r.status = "failed" := by
    rw [List.length_pos]
    constructor
    · intro hne
      obtain ⟨r, hr⟩ := List.exists_mem_of_ne_nil _ hne
      have hmem := List.mem_filter.mp hr
      exact ⟨r, hmem.1, by simpa using hmem.2⟩
    · rintro ⟨r, hr, hst⟩ hnil
      have : r ∈ results.filter (fun r => r.status == "failed") :=
        List.mem_filter.mpr ⟨hr, by simpa⟩
      simp [hnil] at this
  by_cases hp : 0 < (results.filter (fun r => r.status == "failed")).length
  · simp only [exit_code_of, if_pos hp]
    simpa using hiff.mp hp
  · simp only [exit_code_of, if_neg hp]
    constructor
    · intro h; exact absurd rfl h
    · intro hex; exact absurd (hiff.mpr hex) hp

/-- `print_summary` completes without raising exactly when the batch is
non-empty and every result carries a validation record. -/
lemma print_summary_exception_none_iff (results : List RunResult) :
    print_summary_exception results = Option.none ↔
      results ≠ [] ∧ ∀ r ∈ results, (r.validation).isSome = true := by
  by_cases h1 : results.any (fun r => r.validation.isNone) = true
  · simp only [print_summary_exception, h1, if_true]
    simp only [List.any_eq_true] at h1
    obtain ⟨r, hr, hnone⟩ := h1
    constructor
    · intro h; cases h
    · rintro ⟨hne, hall⟩
      have hs := hall r hr
      rw [Option.isNone_iff_eq_none] at hnone
      rw [hnone] at hs
      cases hs
  · simp only [Bool.not_eq_true] at h1
    have hall : ∀ r ∈ results, (r.validation).isSome = true := by
      intro r hr
      have : ¬ ((r.validation).isNone = true) := by
        intro hcontra
        have : results.any (fun r => r.validation.isNone) = true :=
          List.any_eq_true.mpr ⟨r, hr, hcontra⟩
        rw [h1] at this
        cases this
      cases hv : r.validation with
      | none => rw [hv] at this; simp at this
      | some v => rfl
    by_cases h2 : results.length = 0
    · simp only [print_summary_exception, h1, Bool.false_eq_true, if_false, h2, if_pos]
      constructor
      · intro h; cases h
      · rintro ⟨hne, _⟩
        exact absurd (List.length_eq_zero.mp h2) hne
    · have hne : results ≠ [] := fun hnil => h2 (by rw [hnil]; rfl)
      simp only [print_summary_exception, h1, h2, hne, Bool.false_eq_true, if_false,
        ne_eq, not_false_eq_true, true_and, if_neg h2]
      exact iff_of_true trivial hall

/-- C4: the explicit exit-code policy at the bottom of `main` is
non-zero iff some evaluation ended `failed` — but the process does not
honor it: a batch whose single evaluation times out has no `failed`
result, yet `print_summary` raises `AttributeError`
(`r.get('validation', {})` yields `None` for a timeout result and
`None.get(...)` faults), so the process still terminates with a
non-zero status before `sys.exit(0)` is reached. -/
theorem exit_policy_spec :
    (∀ results : List RunResult,
        exit_code_of results ≠ 0 ↔ ∃ r ∈ results, r.status = "failed")
    ∧ ((run_evaluations (fun _ => timeout_env) sample_config [sample_evaluation]
          Option.none).map (fun r => r.status) = ["timeout"])
    ∧ exit_code_of (run_evaluations (fun _ => timeout_env) sample_config [sample_evaluation]
        Option.none) = 0
    ∧ print_summary_exception (run_evaluations (fun _ => timeout_env) sample_config
        [sample_evaluation] Option.none) = some "AttributeError"
    ∧ main_exit (.ok sample_config) (fun _ => .ok [sample_evaluation]) (fun _ => timeout_env)
        Option.none false = 1 :=
  ⟨exit_code_of_ne_zero_iff, by decide, by decide, by decide, by decide⟩

/-- C5 (amended): the process exits 0 iff at least one evaluation was
executed and every executed evaluation ended `passed` (an empty batch
makes `print_summary` divide by zero and the process exit 1); it exits
1 whenever some evaluation ends `failed`; and a configuration or
evaluations-file load failure exits 1 regardless of the external
world, i.e. before anything runs. -/
theorem main_exit_amended_spec :
    (∀ (cfg : Config) (evals : List Evaluation) (env : Nat → EvalEnv) (ids : Option (List Int)),
        main_exit (.ok cfg) (fun _ => .ok evals) env ids false = 0 ↔
          (run_evaluations env cfg evals ids ≠ []
            ∧ ∀ r ∈ run_evaluations env cfg evals ids, r.status = "passed"))
    ∧ (∀ (cfg : Config) (evals : List Evaluation) (env : Nat → EvalEnv) (ids : Option (List Int)),
        (∃ r ∈ run_evaluations env cfg evals ids, r.status = "failed") →
          main_exit (.ok cfg) (fun _ => .ok evals) env ids false = 1)
    ∧ (∀ (e : String) (loadEvals : Config → Except String (List Evaluation))
          (env : Nat → EvalEnv) (ids : Option (List Int)) (dry : Bool),
        main_exit (.error e) loadEvals env ids dry = 1)
    ∧ (∀ (cfg : Config) (e : String) (env : Nat → EvalEnv) (ids : Option (List Int)) (dry : Bool),
        main_exit (.ok cfg) (fun _ => .error e) env ids dry = 1) := by
  refine ⟨fun cfg evals env ids => ?_, fun cfg evals env ids hex => ?_,
    fun e loadEvals env ids dry => rfl, fun cfg e env ids dry => rfl⟩
  · have hmain : main_exit (.ok cfg) (fun _ => .ok evals) env ids false =
        (match print_summary_exception (run_evaluations env cfg evals ids) with
          | some _ => 1
          | Option.none => exit_code_of (run_evaluations env cfg evals ids)) := rfl
    rw [hmain]
    cases hpse : print_summary_exception (run_evaluations env cfg evals ids) with
    | some s =>
      constructor
      · intro h; exact absurd h one_ne_zero
      · rintro ⟨hne, hall⟩
        have hnone : print_summary_exception (run_evaluations env cfg evals ids) =
            Option.none := by
          rw [print_summary_exception_none_iff]
          refine ⟨hne, fun r hr => ?_⟩
          obtain ⟨i, ev, hrid⟩ := mem_run_evaluations hr
          have hps := hall r hr
          rw [hrid] at hps
          rcases run_single_evaluation_status_cases (env i) cfg ev with h | h | h
          · rw [hrid]; exact h.2
          · exact absurd (hps.symm.trans h) (by decide)
          · rcases h.1 with h1 | h1
            · exact absurd (hps.symm.trans h1) (by decide)
            · exact absurd (hps.symm.trans h1) (by decide)
        rw [hnone] at hpse
        cases hpse
    | none =>
      rw [print_summary_exception_none_iff] at hpse
      obtain ⟨hne, hsome⟩ := hpse
      constructor
      · intro h0
        refine ⟨hne, fun r hr => ?_⟩
        have hnf : ¬ ∃ x ∈ run_evaluations env cfg evals ids, x.status = "failed" := by
          intro hex2
          exact absurd h0 ((exit_code_of_ne_zero_iff _).mpr hex2)
        obtain ⟨i, ev, hrid⟩ := mem_run_evaluations hr
        rcases run_single_evaluation_status_cases (env i) cfg ev with h | h | h
        · rw [hrid]; exact h.1
        · exact absurd ⟨r, hr, by rw [hrid]; exact h⟩ hnf
        · have hs := hsome r hr
          rw [hrid, h.2] at hs
          cases hs
      · rintro ⟨hne2, hall⟩
        by_contra h0
        obtain ⟨r, hr, hf⟩ := (exit_code_of_ne_zero_iff _).mp h0
        exact absurd ((hall r hr).symm.trans hf) (by decide)
  · have hmain : main_exit (.ok cfg) (fun _ => .ok evals) env ids false =
        (match print_summary_exception (run_evaluations env cfg evals ids) with
          | some _ => 1
          | Option.none => exit_code_of (run_evaluations env cfg evals ids)) := rfl
    rw [hmain]
    cases hpse : print_summary_exception (run_evaluations env cfg evals ids) with
    | some s => rfl
    | none =>
      obtain ⟨r, hr, hf⟩ := hex
      have hpos :
          0 < ((run_evaluations env cfg evals ids).filter
            (fun r => r.status == "failed")).length := by
        rw [List.length_pos]
        intro hnil
        have : r ∈ (run_evaluations env cfg evals ids).filter
            (fun r => r.status == "failed") := List.mem_filter.mpr ⟨hr, by simpa⟩
        simp [hnil] at this
      simp [exit_code_of, hpos]

/-- Counterexample to C5 as stated: with an empty evaluations file
nothing is executed, so vacuously every executed evaluation ended
`passed`, yet the process exits 1 (the pass-rate line of
`print_summary` divides by zero). -/
theorem main_exit_zero_iff_all_passed_cex :
    run_evaluations (fun _ => timeout_env) sample_config ([] : List Evaluation) Option.none = []
    ∧ main_exit (.ok sample_config) (fun _ => .ok ([] : List Evaluation))
        (fun _ => timeout_env) Option.none false = 1 :=
  ⟨rfl, rfl⟩

/-- Witness for the amended C5 at a concrete input: one evaluation whose
validation fails makes the process exit 1. -/
theorem main_exit_amended_spec_witness :
    main_exit (.ok sample_config) (fun _ => .ok [sample_evaluation]) (fun _ => good_env)
      Option.none false = 1 :=
  main_exit_amended_spec.2.1 sample_config [sample_evaluation] (fun _ => good_env) Option.none
    ⟨failed_run_result, List.mem_cons_self _ _, by decide⟩

/-- C8: a batch produces exactly one result per selected evaluation;
every single-evaluation run terminates in one of the four statuses
(exceptions from any pipeline step are caught at the evaluation's
boundary, never propagated to the batch driver); and in a concrete
batch of three where only the second evaluation raises while parsing,
the result list has length 3, result #2 records `status = "error"`
with the exception's message, and #1 and #3 complete normally. -/
theorem evaluation_error_isolation_spec :
    (∀ (env : Nat → EvalEnv) (cfg : Config) (evals : List Evaluation) (ids : Option (List Int)),
        (run_evaluations env cfg evals ids).length = (filter_evaluations evals ids).length)
    ∧ (∀ (env : EvalEnv) (cfg : Config) (ev : Evaluation),
        (run_single_evaluation env cfg ev).status = "passed"
        ∨ (run_single_evaluation env cfg ev).status = "failed"
        ∨ (run_single_evaluation env cfg ev).status = "timeout"
        ∨ (run_single_evaluation env cfg ev).status = "error")
    ∧ ((run_evaluations batch3_env sample_config
          [empty_evaluation 1 "PR one", empty_evaluation 2 "PR two", empty_evaluation 3 "PR three"]
          Option.none).map (fun r => (r.status, r.error))
        = [("passed", Option.none), ("error", some "parse failure: malformed comment"),
            ("passed", Option.none)]) := by
  refine ⟨fun env cfg evals ids => ?_, fun env cfg ev => ?_, by decide⟩
  · simp only [run_evaluations]
    split
    next h => rw [List.isEmpty_iff] at h; rw [h]; rfl
    next h => rw [List.length_map, List.enum_length]
  · rcases run_single_evaluation_status_cases env cfg ev with h | h | h
    · exact Or.inl h.1
    · exact Or.inr (Or.inl h)
    · rcases h.1 with h1 | h1
      · exact Or.inr (Or.inr (Or.inl h1))
      · exact Or.inr (Or.inr (Or.inr h1))

/-- C9: the per-dimension missing-item details for failed evaluations
are never part of the printed summary — the guard `'validation' in val`
tests the validation dictionary itself, whose keys never include
`"validation"`, so `failed_missing_details` is constantly empty; at a
concrete failed evaluation whose categories dimension misses
`security`, the summary still carries no missing-item details. -/
theorem summary_missing_details_spec :
    (∀ val : ValidationResults, failed_missing_details val = [])
    ∧ (∀ results : List RunResult,
        print_summary_missing_info results =
          (results.filter (fun r => r.status == "failed")).map
            (fun r => (r.validation).map (fun _ => [])))
    ∧ failed_run_result.status = "failed"
    ∧ (validate_strict empty_parsed sample_evaluation).categories.missing = {Item.str "security"}
    ∧ failed_run_result.validation = some (validate_strict empty_parsed sample_evaluation)
    ∧ print_summary_missing_info [failed_run_result] = [some []] := by
  have h1 : ∀ val : ValidationResults, failed_missing_details val = [] := by
    intro val
    have h : validate_strict_keys.contains "validation" = false := by decide
    simp only [failed_missing_details, h, Bool.false_eq_true, if_false]
  refine ⟨h1, fun results => ?_, by decide, by decide, rfl, by decide⟩
  · unfold print_summary_missing_info
    rw [funext h1]

end GoldenDataset
